import Mathlib

/-!
# Verified model of the socketmap daemon's protocol layer

A shallow embedding of `socketmap.py`: the netstring framing codec
(`netstring_reader` / `write_netstring`), the per-request dispatch logic of
`Handler.handle` / `Handler.run_query`, the built-in key transforms, and the
transform-resolution step of `parse_config`.  Streams are modelled as lists of
characters and the SQLite database as an abstract query function supplied as a
parameter.
-/

namespace Socketmap

/-- How an iteration of the netstring reader over a whole stream ends:
`clean` models the generator returning normally, `malformed` models
`MalformedNetstringError` escaping, `valueError` models the `ValueError`
raised by `int(n, 10)` on a non-numeric length buffer. -/
inductive Outcome
  | clean
  | malformed
  | valueError
deriving DecidableEq, Repr

/-- Python's `s.split(sep, 1)`: the part before the first occurrence of `sep`,
and—when `sep` occurs at all—the remainder after it. -/
def splitOnce : List Char → Char → List Char × Option (List Char)
  | [], _ => ([], none)
  | c :: cs, sep =>
    if c = sep then ([], some cs)
    else
      let r := splitOnce cs sep
      (c :: r.1, r.2)

/-- Result of the inner length-reading loop of `netstring_reader`:
end of stream (`fp.read(1) == ''` makes the generator return), a
`MalformedNetstringError`, or a `:` reached with the accumulated digit buffer
and the rest of the stream. -/
inductive ReadLenResult
  | eofEnd
  | bad
  | colon (acc rest : List Char)
deriving DecidableEq, Repr

/-- The inner `while` loop of `netstring_reader`: accumulate length characters
in `acc` until `:` is seen.  End of stream returns cleanly; a buffer already
longer than 10 characters is a framing error; a leading `0` must be followed
immediately by `:`. -/
def readLen (acc : List Char) : List Char → ReadLenResult
  | [] => .eofEnd
  | c :: rest =>
    if c = ':' then .colon acc rest
    else if acc.length > 10 then .bad
    else if c = '0' ∧ acc = [] then
      match rest with
      | [] => .bad
      | d :: rest2 => if d = ':' then .colon ['0'] rest2 else .bad
    else readLen (acc ++ [c]) rest

/-- Python's `int(n, 10)` on the length buffer: the value of a nonempty string
of ASCII decimal digits, `none` (a `ValueError`) otherwise. -/
def toDecimal? (ds : List Char) : Option Nat :=
  if ds ≠ [] ∧ ds.all Char.isDigit then
    some (ds.foldl (fun a c => a * 10 + (c.toNat - 48)) 0)
  else none

/-- One step of `netstring_reader`: either the iteration ends with an
`Outcome`, or one payload frame is produced together with the unread rest of
the stream. -/
inductive FrameStep
  | done (o : Outcome)
  | frame (payload rest : List Char)
deriving DecidableEq, Repr

/-- One pass of the outer `while True` loop of `netstring_reader`: read the
length, parse it, read exactly `n` payload bytes (a short read ends the
iteration cleanly), then require a `,` terminator. -/
def decodeStep (s : List Char) : FrameStep :=
  match readLen [] s with
  | .eofEnd => .done .clean
  | .bad => .done .malformed
  | .colon acc rest =>
    match toDecimal? acc with
    | none => .done .valueError
    | some n =>
      if rest.length < n then .done .clean
      else
        match rest.drop n with
        | ',' :: r => .frame (rest.take n) r
        | _ => .done .malformed

/-- Fuelled iteration of `decodeStep`; with fuel above the stream length the
fuel never runs out. -/
def decodeAux : Nat → List Char → List (List Char) × Outcome
  | 0, _ => ([], .clean)
  | fuel + 1, s =>
    match decodeStep s with
    | .done o => ([], o)
    | .frame p r =>
      let res := decodeAux fuel r
      (p :: res.1, res.2)

/-- The whole of `netstring_reader` on a finite stream: the list of payloads
the generator yields, and how the iteration ends. -/
def decode (s : List Char) : List (List Char) × Outcome :=
  decodeAux (s.length + 1) s

/-- Python's `str(n)` for a natural number, via a fuelled helper. -/
def natToDigitsAux : Nat → Nat → List Char
  | 0, _ => []
  | fuel + 1, n =>
    if n < 10 then [Char.ofNat (48 + n)]
    else natToDigitsAux fuel (n / 10) ++ [Char.ofNat (48 + n % 10)]

/-- Python's `str(n)`: the decimal digits of `n`, no leading zeros, `"0"` for
zero. -/
def natToDigits (n : Nat) : List Char :=
  natToDigitsAux (n + 1) n

/-- Model of `Handler.write_netstring`: `'{}:{},'.format(len(response), response)`. -/
def write_netstring (response : List Char) : List Char :=
  natToDigits response.length ++ ':' :: response ++ [',']

/-- The `passthrough` transform of `parse_config`. -/
def passthrough (arg : String) : String := arg

/-- The `local_part` transform of `parse_config`: `arg.split('@', 1)[0]`. -/
def local_part (arg : String) : String := ⟨(splitOnce arg.data '@').1⟩

/-- The `domain_part` transform of `parse_config`: `arg.split('@', 1)[1]`;
`none` models the `IndexError` raised when the argument has no `@`. -/
def domain_part (arg : String) : Option String :=
  ((splitOnce arg.data '@').2).map fun l => ⟨l⟩

/-- The `passthrough` transform as the partial function stored in the registry. -/
def passthroughFn (arg : String) : Except String String := .ok (passthrough arg)

/-- The `local_part` transform as the partial function stored in the registry. -/
def local_partFn (arg : String) : Except String String := .ok (local_part arg)

/-- The `domain_part` transform as the partial function stored in the registry; the error
carries the `IndexError` message. -/
def domain_partFn (arg : String) : Except String String :=
  match domain_part arg with
  | some d => .ok d
  | none => .error "list index out of range"

/-- One entry of `server.tables`: the configured SQL text and the transform,
a string function that may raise (modelled in `Except`). -/
structure TableDef where
  query : String
  transform : String → Except String String

/-- Model of `Handler.run_query` together with `Handler._query_db`.  The registry is
`server.tables.get`; the database collaborator takes the query text and the
bound parameter and returns `cursor.fetchone()`'s row (or an exception
message).  A missing table raises `NoSuchTable(table_name)`, whose `str` is
the table name itself. -/
def run_query (tables : String → Option TableDef)
    (db : String → String → Except String (Option (List String)))
    (table_name arg : String) : Except String (Option (List String)) :=
  match tables table_name with
  | none => .error table_name
  | some t =>
    match t.transform arg with
    | .error e => .error e
    | .ok key => db t.query key

/-- What one iteration of the `for` loop in `Handler.handle` does with a
decoded request: write one netstring reply, or let an exception escape the
handler (ending the connection). -/
inductive RequestOutcome
  | reply (wire : List Char)
  | crash
deriving Repr

/-- The body of the `for` loop in `Handler.handle` for one decoded request.
`request.split(' ', 1)` is unpacked into two names *outside* the
`try` block, so a request without a space raises an uncaught `ValueError`;
likewise `result[0]` on an empty row raises an uncaught `IndexError`. -/
def handle_request (tables : String → Option TableDef)
    (db : String → String → Except String (Option (List String)))
    (request : String) : RequestOutcome :=
  match splitOnce request.data ' ' with
  | (_, none) => .crash
  | (tn, some arg) =>
    match run_query tables db ⟨tn⟩ ⟨arg⟩ with
    | .error e => .reply (write_netstring ("PERM " ++ e).data)
    | .ok none => .reply (write_netstring "NOTFOUND ".data)
    | .ok (some []) => .crash
    | .ok (some (v :: _)) => .reply (write_netstring ("OK " ++ v).data)

/-- Model of `Handler.handle` over an already-decoded list of requests: the netstrings
written to `wfile` in order, and whether an exception escaped the handler
(terminating the connection before later requests are served). -/
def handle_frames (tables : String → Option TableDef)
    (db : String → String → Except String (Option (List String))) :
    List String → List (List Char) × Bool
  | [] => ([], false)
  | req :: rest =>
    match handle_request tables db req with
    | .crash => ([], true)
    | .reply w =>
      let res := handle_frames tables db rest
      (w :: res.1, res.2)

/-- Python's `s.split(sep)` with no limit. -/
def splitAll : List Char → Char → List (List Char)
  | [], _ => [[]]
  | c :: cs, sep =>
    if c = sep then [] :: splitAll cs sep
    else
      match splitAll cs sep with
      | [] => [[c]]
      | p :: ps => (c :: p) :: ps

/-- The class `[a-z_]` under `re.I`: an ASCII letter or underscore. -/
def isIdentStart (c : Char) : Bool := c.isAlpha || c = '_'

/-- The class `[a-z0-9_]` under `re.I`: an ASCII letter, digit or underscore. -/
def isIdentCont (c : Char) : Bool := c.isAlpha || c.isDigit || c = '_'

/-- One identifier segment `[a-z_][a-z0-9_]*` of `FUNC_REF_PATTERN`. -/
def isSegment : List Char → Bool
  | [] => false
  | c :: cs => isIdentStart c && cs.all isIdentCont

/-- A dotted path `seg(\.seg)*` of `FUNC_REF_PATTERN`. -/
def isDottedPath (s : List Char) : Bool := (splitAll s '.').all isSegment

/-- The `match` function over `FUNC_REF_PATTERN`: the `module` and `object`
groups when the anchored pattern matches, otherwise `none` (the
`ValueError` raised for a malformed callable). -/
def matchRef (name : String) : Option (String × String) :=
  match splitAll name.data ':' with
  | [m, o] => if isDottedPath m && isDottedPath o then some (⟨m⟩, ⟨o⟩) else none
  | _ => none

/-- Transform resolution for one table section of `parse_config`: the
built-in names `all`, `local` and `domain`, else
`resolve(*match(transform_name))`, with `resolve` (a dynamic module/attribute
import) supplied as an external collaborator that may fail. -/
def resolveTransform
    (resolver : String → String → Option (String → Except String String))
    (spec : String) : Except String (String → Except String String) :=
  if spec = "all" then .ok passthroughFn
  else if spec = "local" then .ok local_partFn
  else if spec = "domain" then .ok domain_partFn
  else
    match matchRef spec with
    | none => .error ("Malformed callable " ++ spec)
    | some (m, o) =>
      match resolver m o with
      | none => .error ("cannot resolve " ++ m ++ ":" ++ o)
      | some f => .ok f

/-- One section of the parsed configuration file as `parse_config` sees it:
its name, and its optional `query` and `transform` options. -/
structure ConfigSection where
  name : String
  query : Option String
  transform : Option String

/-- The `tables` loop of `parse_config`: sections not named `table:...` are
ignored, table sections without a `query` are skipped with a warning, a
missing `transform` defaults to `all`, and a transform that fails to resolve
aborts the whole configuration load with the raised error. -/
def build_tables
    (resolver : String → String → Option (String → Except String String)) :
    List ConfigSection → Except String (List (String × TableDef))
  | [] => .ok []
  | sec :: rest =>
    if "table:".data.isPrefixOf sec.name.data then
      match sec.query with
      | none => build_tables resolver rest
      | some q =>
        match resolveTransform resolver ((sec.transform).getD "all") with
        | .error e => .error e
        | .ok f =>
          match build_tables resolver rest with
          | .error e => .error e
          | .ok tbl =>
            .ok ((⟨((splitOnce sec.name.data ':').2).getD []⟩, ⟨q, f⟩) :: tbl)
    else build_tables resolver rest

/-! ## Basic facts about the framing codec -/

/-- A decimal digit is never the `:` delimiter. -/
theorem isDigit_ne_colon {c : Char} (h : c.isDigit) : c ≠ ':' := by
  intro he
  subst he
  simp [Char.isDigit] at h

/-- The length-reading loop consumes at least the `:`, so the rest of the
stream it hands back is strictly shorter. -/
theorem readLen_colon_length :
    ∀ (s acc a rest : List Char), readLen acc s = .colon a rest →
      rest.length < s.length := by
  intro s
  induction s with
  | nil =>
    intro acc a rest h
    simp [readLen] at h
  | cons c s' ih =>
    intro acc a rest h
    by_cases hc : c = ':'
    · simp [readLen, hc] at h
      obtain ⟨-, h2⟩ := h
      subst h2
      simp
    · by_cases hlen : acc.length > 10
      · simp [readLen, hc, hlen] at h
      · by_cases hz : c = '0' ∧ acc = []
        · cases s' with
          | nil => simp [readLen, hc, hlen, hz] at h
          | cons d rest2 =>
            by_cases hd : d = ':'
            · simp [readLen, hc, hlen, hz, hd] at h
              obtain ⟨-, h2⟩ := h
              subst h2
              simp
              omega
            · simp [readLen, hc, hlen, hz, hd] at h
        · simp [readLen, hc, hlen, hz] at h
          have := ih (acc ++ [c]) a rest h
          simp at this ⊢
          omega

/-- A produced frame leaves a strictly shorter rest of the stream. -/
theorem decodeStep_frame_length {s p r : List Char}
    (h : decodeStep s = .frame p r) : r.length < s.length := by
  cases hrl : readLen [] s with
  | eofEnd => simp [decodeStep, hrl] at h
  | bad => simp [decodeStep, hrl] at h
  | colon acc rest =>
    simp only [decodeStep, hrl] at h
    cases htd : toDecimal? acc with
    | none => simp only [htd] at h; simp at h
    | some n =>
      simp only [htd] at h
      by_cases hlt : rest.length < n
      · rw [if_pos hlt] at h; simp at h
      · rw [if_neg hlt] at h
        have h1 : rest.length < s.length := readLen_colon_length s [] acc rest hrl
        cases hdr : rest.drop n with
        | nil => simp only [hdr] at h; simp at h
        | cons d r' =>
          simp only [hdr] at h
          have h2 : (rest.drop n).length = rest.length - n := List.length_drop n rest
          rw [hdr] at h2
          simp only [List.length_cons] at h2
          split at h
          · rename_i r3 heq
            injection heq with hd hr3
            simp only [FrameStep.frame.injEq] at h
            obtain ⟨-, h4⟩ := h
            subst h4
            subst hr3
            omega
          · simp at h

/-- Any fuel above the stream length computes the same decoding. -/
theorem decodeAux_irrel :
    ∀ (f1 f2 : Nat) (s : List Char), s.length < f1 → s.length < f2 →
      decodeAux f1 s = decodeAux f2 s := by
  intro f1
  induction f1 with
  | zero =>
    intro f2 s h1 _
    exact absurd h1 (by omega)
  | succ f1 ih =>
    intro f2 s h1 h2
    cases f2 with
    | zero => exact absurd h2 (by omega)
    | succ f2 =>
      simp only [decodeAux]
      cases hds : decodeStep s with
      | done o => rfl
      | frame p r =>
        have hr : r.length < s.length := decodeStep_frame_length hds
        simp only
        rw [ih f2 r (by omega) (by omega)]

/-- When the first step ends the iteration, the whole decode is that end. -/
theorem decode_done {s : List Char} {o : Outcome}
    (h : decodeStep s = .done o) : decode s = ([], o) := by
  simp [decode, decodeAux, h]

/-- When the first step produces a frame, decode yields it and continues on
the rest of the stream. -/
theorem decode_frame {s p r : List Char}
    (h : decodeStep s = .frame p r) :
    decode s = (p :: (decode r).1, (decode r).2) := by
  have hr : r.length < s.length := decodeStep_frame_length h
  have hs : decode s = (p :: (decodeAux s.length r).1, (decodeAux s.length r).2) := by
    simp [decode, decodeAux, h]
  rw [decodeAux_irrel s.length (r.length + 1) r (by omega) (by omega)] at hs
  exact hs

/-- The length loop walks a run of at most 11 digits (with no leading zero
unless the run is about to end) up to the `:`. -/
theorem readLen_run :
    ∀ (ds acc rest : List Char),
      (∀ c ∈ ds, c.isDigit) →
      acc.length + ds.length ≤ 11 →
      (acc = [] → ∀ c, ds.head? = some c → c ≠ '0') →
      readLen acc (ds ++ ':' :: rest) = .colon (acc ++ ds) rest := by
  intro ds
  induction ds with
  | nil =>
    intro acc rest _ _ _
    simp [readLen]
  | cons d ds' ih =>
    intro acc rest hdig hlen hz
    have hd : d.isDigit := hdig d (by simp)
    have hdc : d ≠ ':' := isDigit_ne_colon hd
    have hlen' : ¬ acc.length > 10 := by
      simp only [List.length_cons] at hlen
      omega
    have hnz : ¬ (d = '0' ∧ acc = []) := by
      rintro ⟨h0, hacc⟩
      exact hz hacc d (by simp) h0
    have hstep := ih (acc ++ [d]) rest (fun c hc => hdig c (by simp [hc]))
      (by simp at hlen ⊢; omega)
      (fun habs => absurd habs (by simp))
    rw [List.append_assoc] at hstep
    simp only [List.cons_append, readLen, if_neg hdc, if_neg hlen', if_neg hnz]
    exact hstep

/-- Twelve consecutive non-`:` characters at the front of the length run make
the reader raise `MalformedNetstringError`. -/
theorem readLen_long :
    ∀ (cs acc rest : List Char), cs ≠ [] → (∀ c ∈ cs, c ≠ ':') →
      12 ≤ acc.length + cs.length → readLen acc (cs ++ rest) = .bad := by
  intro cs
  induction cs with
  | nil =>
    intro acc rest h
    exact absurd rfl h
  | cons c cs' ih =>
    intro acc rest _ hnc hlen
    have hc : c ≠ ':' := hnc c (by simp)
    cases cs' with
    | nil =>
      have h10 : acc.length > 10 := by
        simp only [List.length_cons, List.length_nil] at hlen
        omega
      simp [readLen, hc, h10]
    | cons c' cs'' =>
      by_cases hlen10 : acc.length > 10
      · simp [readLen, hc, hlen10]
      · by_cases hz : c = '0' ∧ acc = []
        · have hc' : c' ≠ ':' := hnc c' (by simp)
          simp [readLen, hc, hlen10, hz, hc']
        · have hrec := ih (acc ++ [c]) rest (by simp)
            (fun x hx => hnc x (by simp [hx]))
            (by simp at hlen ⊢; omega)
          simp only [List.cons_append, readLen, if_neg hc, if_neg hlen10,
            if_neg hz]
          exact hrec

/-! ## Facts about the decimal rendering of lengths -/

/-- Any fuel above the number computes the same digits. -/
theorem natToDigitsAux_irrel :
    ∀ (f1 f2 n : Nat), n < f1 → n < f2 →
      natToDigitsAux f1 n = natToDigitsAux f2 n := by
  intro f1
  induction f1 with
  | zero =>
    intro f2 n h1 _
    exact absurd h1 (by omega)
  | succ f1 ih =>
    intro f2 n h1 h2
    cases f2 with
    | zero => exact absurd h2 (by omega)
    | succ f2 =>
      simp only [natToDigitsAux]
      by_cases h10 : n < 10
      · simp [h10]
      · have hdiv : n / 10 < n := Nat.div_lt_self (by omega) (by omega)
        rw [if_neg h10, if_neg h10, ih f2 (n / 10) (by omega) (by omega)]

/-- Digits of a one-digit number. -/
theorem natToDigits_lt10 {n : Nat} (h : n < 10) :
    natToDigits n = [Char.ofNat (48 + n)] := by
  simp [natToDigits, natToDigitsAux, h]

/-- Digits of a multi-digit number end in the last digit. -/
theorem natToDigits_ge10 {n : Nat} (h : 10 ≤ n) :
    natToDigits n = natToDigits (n / 10) ++ [Char.ofNat (48 + n % 10)] := by
  have hdiv : n / 10 < n := Nat.div_lt_self (by omega) (by omega)
  have hstep : natToDigits n = natToDigitsAux n (n / 10) ++ [Char.ofNat (48 + n % 10)] := by
    simp only [natToDigits, natToDigitsAux]
    rw [if_neg (by omega)]
  rw [hstep, natToDigitsAux_irrel n (n / 10 + 1) (n / 10) (by omega) (by omega)]
  rfl

/-- The character of a decimal digit has the expected code point. -/
theorem charOfDigit_toNat {d : Nat} (h : d < 10) :
    (Char.ofNat (48 + d)).toNat = 48 + d := by
  interval_cases d <;> rfl

/-- The character of a decimal digit is a digit. -/
theorem charOfDigit_isDigit {d : Nat} (h : d < 10) :
    (Char.ofNat (48 + d)).isDigit := by
  interval_cases d <;> rfl

/-- The character of a nonzero decimal digit is not `'0'`. -/
theorem charOfDigit_ne_zero {d : Nat} (h1 : 1 ≤ d) (h2 : d < 10) :
    Char.ofNat (48 + d) ≠ '0' := by
  interval_cases d <;> decide

/-- A decimal rendering is never empty. -/
theorem natToDigits_ne_nil (n : Nat) : natToDigits n ≠ [] := by
  by_cases h : n < 10
  · rw [natToDigits_lt10 h]
    simp
  · rw [natToDigits_ge10 (by omega)]
    simp

/-- Every character of a decimal rendering is a digit. -/
theorem natToDigits_isDigit :
    ∀ (n : Nat), ∀ c ∈ natToDigits n, c.isDigit := by
  intro n
  induction n using Nat.strong_induction_on with
  | _ n ih =>
    by_cases h : n < 10
    · rw [natToDigits_lt10 h]
      intro c hc
      simp at hc
      subst hc
      exact charOfDigit_isDigit h
    · rw [natToDigits_ge10 (by omega)]
      intro c hc
      rcases List.mem_append.mp hc with hcl | hcr
      · exact ih (n / 10) (Nat.div_lt_self (by omega) (by omega)) c hcl
      · simp at hcr
        subst hcr
        exact charOfDigit_isDigit (Nat.mod_lt _ (by omega))

/-- A positive number's decimal rendering has no leading zero. -/
theorem natToDigits_head_ne_zero :
    ∀ (n : Nat), 1 ≤ n → ∀ c, (natToDigits n).head? = some c → c ≠ '0' := by
  intro n
  induction n using Nat.strong_induction_on with
  | _ n ih =>
    intro h1 c hc
    by_cases h : n < 10
    · rw [natToDigits_lt10 h] at hc
      simp at hc
      subst hc
      exact charOfDigit_ne_zero h1 h
    · rw [natToDigits_ge10 (by omega),
        List.head?_append_of_ne_nil _ (natToDigits_ne_nil (n / 10))] at hc
      have hd1 : 1 ≤ n / 10 := (Nat.le_div_iff_mul_le (by omega)).mpr (by omega)
      exact ih (n / 10) (Nat.div_lt_self (by omega) (by omega)) hd1 c hc

/-- A number below `10 ^ k` has at most `k` decimal digits. -/
theorem natToDigits_length_le :
    ∀ (k n : Nat), 1 ≤ k → n < 10 ^ k → (natToDigits n).length ≤ k := by
  intro k
  induction k with
  | zero =>
    intro n h
    exact absurd h (by omega)
  | succ k ih =>
    intro n _ hn
    by_cases h : n < 10
    · rw [natToDigits_lt10 h]
      simp
    · have hk : 1 ≤ k := by
        by_contra hk0
        have hkz : k = 0 := by omega
        subst hkz
        simp at hn
        omega
      rw [natToDigits_ge10 (by omega)]
      have hdiv : n / 10 < 10 ^ k := by
        rw [Nat.div_lt_iff_lt_mul (by omega : (0 : Nat) < 10)]
        calc n < 10 ^ (k + 1) := hn
          _ = 10 ^ k * 10 := by ring
      have := ih (n / 10) hk hdiv
      simp only [List.length_append, List.length_singleton]
      omega

/-- Folding the digit-accumulation step of `toDecimal?` over a decimal
rendering recovers the number. -/
theorem foldl_natToDigits :
    ∀ (n a : Nat),
      List.foldl (fun a c => a * 10 + (c.toNat - 48)) a (natToDigits n) =
        a * 10 ^ (natToDigits n).length + n := by
  intro n
  induction n using Nat.strong_induction_on with
  | _ n ih =>
    intro a
    by_cases h : n < 10
    · rw [natToDigits_lt10 h]
      simp [charOfDigit_toNat h]
    · have h10 : 10 ≤ n := by omega
      rw [natToDigits_ge10 h10, List.foldl_append]
      have hm : n % 10 < 10 := Nat.mod_lt _ (by omega)
      rw [ih (n / 10) (Nat.div_lt_self (by omega) (by omega)) a]
      simp only [List.foldl_cons, List.foldl_nil, List.length_append,
        List.length_singleton, charOfDigit_toNat hm]
      rw [pow_succ]
      have hsub : 48 + n % 10 - 48 = n % 10 := by omega
      rw [hsub]
      ring_nf
      omega

/-- Parsing a decimal rendering recovers the number: `int(str(n), 10) == n`. -/
theorem toDecimal_natToDigits (n : Nat) :
    toDecimal? (natToDigits n) = some n := by
  unfold toDecimal?
  rw [if_pos ⟨natToDigits_ne_nil n,
    List.all_eq_true.mpr (fun c hc => natToDigits_isDigit n c hc)⟩]
  rw [foldl_natToDigits n 0]
  simp

/-! ## Frame-level helpers -/

/-- Decoding one encoded frame (of encodable length) consumes it exactly. -/
theorem decodeStep_write_netstring (p : List Char) (h : p.length < 10 ^ 11) :
    decodeStep (write_netstring p) = .frame p [] := by
  by_cases h0 : p.length = 0
  · have hp : p = [] := List.length_eq_zero.mp h0
    subst hp
    decide
  · have h1 : 1 ≤ p.length := by omega
    have hwn : write_netstring p = natToDigits p.length ++ ':' :: (p ++ [',']) := by
      simp [write_netstring]
    have hrl : readLen [] (natToDigits p.length ++ ':' :: (p ++ [','])) =
        .colon (natToDigits p.length) (p ++ [',']) := by
      have hrun := readLen_run (natToDigits p.length) [] (p ++ [','])
        (natToDigits_isDigit p.length)
        (by have := natToDigits_length_le 11 p.length (by omega) h; simp; omega)
        (fun _ c hc => natToDigits_head_ne_zero p.length h1 c hc)
      simpa using hrun
    rw [hwn]
    simp only [decodeStep, hrl, toDecimal_natToDigits]
    rw [if_neg (by simp)]
    have hdrop : (p ++ [',']).drop p.length = [','] := List.drop_left p [',']
    have htake : (p ++ [',']).take p.length = p := List.take_left p [',']
    simp only [hdrop, htake]

/-- A framing error while reading the length is a framing error for the
whole step. -/
theorem decodeStep_of_readLen_bad {s : List Char} (h : readLen [] s = .bad) :
    decodeStep s = .done .malformed := by
  unfold decodeStep
  rw [h]

/-- A leading `0` followed by anything but `:` makes the length reader raise
`MalformedNetstringError`. -/
theorem readLen_zero_bad (c : Char) (rest : List Char) (hc : c ≠ ':') :
    readLen [] ('0' :: c :: rest) = .bad := by
  simp [readLen, hc]

/-- Splitting at the first separator recovers the two halves when the left
half is separator-free. -/
theorem splitOnce_append (sep : Char) :
    ∀ (l r : List Char), sep ∉ l → splitOnce (l ++ sep :: r) sep = (l, some r) := by
  intro l
  induction l with
  | nil =>
    intro r _
    simp [splitOnce]
  | cons c cs ih =>
    intro r hni
    simp only [List.mem_cons, not_or] at hni
    obtain ⟨h1, h2⟩ := hni
    have hcs : ¬ c = sep := fun hcc => h1 hcc.symm
    simp only [List.cons_append, splitOnce, List.append_eq, if_neg hcs]
    rw [ih r h2]

/-! ## The claims about the framing codec -/

/-- Claim C10: decoding the single byte `'0'` with no following data raises
`MalformedNetstringError` (after a leading zero the next read must return
`:`, and end-of-stream is treated like any other non-`:` result), rather
than ending the frame sequence cleanly. -/
theorem claim_c10_lone_zero_is_malformed :
    decode ("0".data) = ([], Outcome.malformed) := by decide

/-- Claim C4: a frame whose declared length starts with `'0'` must continue
with `:` immediately, else decoding raises a framing error; in particular
`"00:,"` and `"007:abc1234,"` are framing errors while `"0:,"` decodes to
exactly one empty frame. -/
theorem claim_c4_leading_zero_rule :
    (∀ (c : Char) (rest : List Char), c ≠ ':' →
      decode ('0' :: c :: rest) = ([], Outcome.malformed)) ∧
    decode ("00:,".data) = ([], Outcome.malformed) ∧
    decode ("007:abc1234,".data) = ([], Outcome.malformed) ∧
    decode ("0:,".data) = ([[]], Outcome.clean) := by
  refine ⟨?_, by decide, by decide, by decide⟩
  intro c rest hc
  apply decode_done
  simp [decodeStep, readLen_zero_bad c rest hc]

/-- Witness for C4: instantiating the leading-zero rule at `'0' 'x' ...`. -/
theorem claim_c4_witness :
    decode ('0' :: 'x' :: "9:,".data) = ([], Outcome.malformed) :=
  claim_c4_leading_zero_rule.1 'x' ("9:,".data) (by decide)

/-- Claim C7: a stream that ends before the declared payload length is
fully available ends the frame sequence cleanly, with no frame for the
truncated data and no error. -/
theorem claim_c7_truncation_clean (s acc rest : List Char) (n : Nat)
    (h1 : readLen [] s = .colon acc rest) (h2 : toDecimal? acc = some n)
    (h3 : rest.length < n) : decode s = ([], Outcome.clean) := by
  apply decode_done
  simp [decodeStep, h1, h2, h3]

/-- Witness for C7: `"5:abc"` declares five payload bytes but only three
follow. -/
theorem claim_c7_witness : decode ("5:abc".data) = ([], Outcome.clean) :=
  claim_c7_truncation_clean ("5:abc".data) ['5'] ("abc".data) 5
    (by decide) (by decide) (by decide)

/-- Counterexample to claim C2 as stated: the length run `"12345678901"` has
exactly 11 characters before the `:`, yet decoding does not raise
`MalformedNetstringError` — the reader accepts the 11-digit length and then
ends cleanly on the truncated payload. -/
theorem claim_c2_counterexample :
    decode ("12345678901:".data) = ([], Outcome.clean) ∧
    (decode ("12345678901:".data)).2 ≠ Outcome.malformed := by
  constructor <;> decide

/-- Claim C2 (amended): only once twelve length-run characters have been
read without a `:` does decoding fail with `MalformedNetstringError`; that
is, a run of more than 11 characters before the `:` is a framing error. -/
theorem claim_c2_overlong_run (cs rest : List Char) (h1 : cs.length = 12)
    (h2 : ∀ c ∈ cs, c ≠ ':') :
    decode (cs ++ rest) = ([], Outcome.malformed) := by
  apply decode_done
  have hbad : readLen [] (cs ++ rest) = .bad :=
    readLen_long cs [] rest (by intro h; subst h; simp at h1) h2 (by simp [h1])
  simp [decodeStep, hbad]

/-- Witness for amended C2: a 12-digit length run. -/
theorem claim_c2_witness :
    decode ("123456789012".data ++ ":,".data) = ([], Outcome.malformed) :=
  claim_c2_overlong_run ("123456789012".data) (":,".data) (by decide) (by decide)

/-- Counterexample to claim C3 as stated: for a payload of `10 ^ 11` bytes
the encoded length has 12 digits, which the reader rejects as a framing
error, so encode–decode does not return the payload. -/
theorem claim_c3_counterexample :
    decode (write_netstring (List.replicate (10 ^ 11) 'a')) ≠
      ([List.replicate (10 ^ 11) 'a'], Outcome.clean) := by
  have hlen : (List.replicate (10 ^ 11) 'a').length = 10 ^ 11 :=
    List.length_replicate _ _
  have hds : natToDigits (10 ^ 11) = "100000000000".data := by decide
  have hwn : write_netstring (List.replicate (10 ^ 11) 'a') =
      "100000000000".data ++
        ':' :: (List.replicate (10 ^ 11) 'a' ++ [',']) := by
    simp only [write_netstring, hlen, hds, List.cons_append, List.nil_append,
      List.append_assoc]
  have hbad : readLen [] (write_netstring (List.replicate (10 ^ 11) 'a')) = .bad := by
    rw [hwn]
    exact readLen_long ("100000000000".data) [] _ (by decide) (by decide) (by decide)
  have hdone : decodeStep (write_netstring (List.replicate (10 ^ 11) 'a')) =
      .done .malformed := decodeStep_of_readLen_bad hbad
  rw [decode_done hdone]
  intro hcontra
  have hfst : ([] : List (List Char)) = [List.replicate (10 ^ 11) 'a'] :=
    congrArg Prod.fst hcontra
  exact List.noConfusion hfst

/-- Claim C3 (amended): for every payload of fewer than `10 ^ 11` bytes
(so its decimal length fits in 11 digits), encoding with the netstring
framing and decoding the result yields exactly that payload as the single
frame, ending cleanly. -/
theorem claim_c3_roundtrip (p : List Char) (h : p.length < 10 ^ 11) :
    decode (write_netstring p) = ([p], Outcome.clean) := by
  rw [decode_frame (decodeStep_write_netstring p h)]
  rfl

/-- Witness for amended C3: round trip of `"abc"`. -/
theorem claim_c3_witness :
    decode (write_netstring ("abc".data)) = (["abc".data], Outcome.clean) :=
  claim_c3_roundtrip ("abc".data) (by decide)

/-! ## The claims about the request dispatcher -/

/-- Claim C1 (the code violates it): a decoded request payload with no space
byte does not produce a `PERM` error response — the tuple unpacking of
`request.split(' ', 1)` happens outside the `try` block, so the `ValueError`
escapes `Handler.handle`, no reply is written, and the connection is
terminated before any further request is served. -/
theorem claim_c1_missing_space_crashes
    (tables : String → Option TableDef)
    (db : String → String → Except String (Option (List String)))
    (rest : List String) :
    handle_frames tables db ("justoneword" :: rest) = ([], true) := rfl

/-- Claim C5: with a well-formed request naming a registered table, a query
returning no row answers `"NOTFOUND "` and a query returning a row answers
`"OK "` followed by the row's first column, each framed as a netstring. -/
theorem claim_c5_dispatch_outcomes
    (tables : String → Option TableDef)
    (db : String → String → Except String (Option (List String)))
    (tn arg : String) (t : TableDef) (key : String)
    (hsp : ' ' ∉ tn.data) (ht : tables tn = some t)
    (htr : t.transform arg = .ok key) :
    (db t.query key = .ok none →
      handle_request tables db (tn ++ " " ++ arg) =
        .reply (write_netstring "NOTFOUND ".data)) ∧
    (∀ (v : String) (cols : List String),
      db t.query key = .ok (some (v :: cols)) →
      handle_request tables db (tn ++ " " ++ arg) =
        .reply (write_netstring ("OK " ++ v).data)) := by
  have hdata : (tn ++ " " ++ arg).data = tn.data ++ ' ' :: arg.data := by
    rw [String.data_append, String.data_append]
    simp [show (" ".data : List Char) = [' '] from rfl]
  have hsplit : splitOnce (tn ++ " " ++ arg).data ' ' = (tn.data, some arg.data) := by
    rw [hdata]
    exact splitOnce_append ' ' tn.data arg.data hsp
  have hrun : run_query tables db tn arg = db t.query key := by
    unfold run_query
    rw [ht]
    show (match t.transform arg with
      | Except.error e => Except.error e
      | Except.ok key => db t.query key) = db t.query key
    rw [htr]
  constructor
  · intro hdb
    unfold handle_request
    rw [hsplit]
    show (match run_query tables db tn arg with
      | .error e => RequestOutcome.reply (write_netstring ("PERM " ++ e).data)
      | .ok none => RequestOutcome.reply (write_netstring "NOTFOUND ".data)
      | .ok (some []) => RequestOutcome.crash
      | .ok (some (v :: _)) =>
        RequestOutcome.reply (write_netstring ("OK " ++ v).data)) =
      RequestOutcome.reply (write_netstring "NOTFOUND ".data)
    rw [hrun, hdb]
  · intro v cols hdb
    unfold handle_request
    rw [hsplit]
    show (match run_query tables db tn arg with
      | .error e => RequestOutcome.reply (write_netstring ("PERM " ++ e).data)
      | .ok none => RequestOutcome.reply (write_netstring "NOTFOUND ".data)
      | .ok (some []) => RequestOutcome.crash
      | .ok (some (v :: _)) =>
        RequestOutcome.reply (write_netstring ("OK " ++ v).data)) =
      RequestOutcome.reply (write_netstring ("OK " ++ v).data)
    rw [hrun, hdb]

/-- A registry holding only the table `aliases` with an identity transform. -/
def aliasTables : String → Option TableDef :=
  fun s =>
    if s = "aliases" then some ⟨"select alias from aliases", fun a => Except.ok a⟩
    else none

/-- A database in which every query finds nothing. -/
def dbEmpty : String → String → Except String (Option (List String)) :=
  fun _ _ => .ok none

/-- A database in which every query finds the single row `("value1",)`. -/
def dbOneRow : String → String → Except String (Option (List String)) :=
  fun _ _ => .ok (some ["value1"])

/-- Witness for C5: both dispatch outcomes at the request `"aliases foo"`. -/
theorem claim_c5_witness :
    handle_request aliasTables dbEmpty ("aliases" ++ " " ++ "foo") =
      .reply (write_netstring "NOTFOUND ".data) ∧
    handle_request aliasTables dbOneRow ("aliases" ++ " " ++ "foo") =
      .reply (write_netstring ("OK " ++ "value1").data) :=
  ⟨(claim_c5_dispatch_outcomes aliasTables dbEmpty "aliases" "foo"
      ⟨"select alias from aliases", fun a => Except.ok a⟩ "foo"
      (by decide) rfl rfl).1 rfl,
   (claim_c5_dispatch_outcomes aliasTables dbOneRow "aliases" "foo"
      ⟨"select alias from aliases", fun a => Except.ok a⟩ "foo"
      (by decide) rfl rfl).2 "value1" [] rfl⟩

/-- Claim C6: a well-formed request naming a table missing from the registry
is answered with a `PERM` error whose message is the missing table's name
(`str(NoSuchTable(table_name))`), and the handler does not crash on it. -/
theorem claim_c6_unknown_table
    (tables : String → Option TableDef)
    (db : String → String → Except String (Option (List String)))
    (tn arg : String) (hsp : ' ' ∉ tn.data) (ht : tables tn = none) :
    handle_request tables db (tn ++ " " ++ arg) =
      .reply (write_netstring ("PERM " ++ tn).data) := by
  have hdata : (tn ++ " " ++ arg).data = tn.data ++ ' ' :: arg.data := by
    rw [String.data_append, String.data_append]
    simp [show (" ".data : List Char) = [' '] from rfl]
  have hsplit : splitOnce (tn ++ " " ++ arg).data ' ' = (tn.data, some arg.data) := by
    rw [hdata]
    exact splitOnce_append ' ' tn.data arg.data hsp
  have hrun : run_query tables db tn arg = .error tn := by
    unfold run_query
    rw [ht]
  unfold handle_request
  rw [hsplit]
  show (match run_query tables db tn arg with
    | .error e => RequestOutcome.reply (write_netstring ("PERM " ++ e).data)
    | .ok none => RequestOutcome.reply (write_netstring "NOTFOUND ".data)
    | .ok (some []) => RequestOutcome.crash
    | .ok (some (v :: _)) =>
      RequestOutcome.reply (write_netstring ("OK " ++ v).data)) =
    RequestOutcome.reply (write_netstring ("PERM " ++ tn).data)
  rw [hrun]

/-- Witness for C6: the request `"nosuch key"` against the empty registry. -/
theorem claim_c6_witness :
    handle_request (fun _ => none) dbEmpty ("nosuch" ++ " " ++ "key") =
      .reply (write_netstring ("PERM " ++ "nosuch").data) :=
  claim_c6_unknown_table (fun _ => none) dbEmpty "nosuch" "key" (by decide) rfl

/-! ## The claims about the transforms and the registry build -/

/-- Claim C8: `local_part` of `"user@example.com"` is `"user"`,
`domain_part` of it is `"example.com"`, and `passthrough` is the identity
on every string. -/
theorem claim_c8_transform_semantics :
    local_part "user@example.com" = "user" ∧
    domain_part "user@example.com" = some "example.com" ∧
    ∀ (s : String), passthrough s = s :=
  ⟨by decide, by decide, fun _ => rfl⟩

/-- Claim C9: a table section (with a query) whose transform specification
is none of the built-in names and does not match `FUNC_REF_PATTERN` makes
the whole configuration load fail with an error instead of producing a
registry. -/
theorem claim_c9_bad_transform_fails_build
    (resolver : String → String → Option (String → Except String String))
    (secs : List ConfigSection) (sec : ConfigSection) (q t : String)
    (hmem : sec ∈ secs) (hname : "table:".data.isPrefixOf sec.name.data = true)
    (hq : sec.query = some q) (ht : sec.transform = some t)
    (h1 : t ≠ "all") (h2 : t ≠ "local") (h3 : t ≠ "domain")
    (hmr : matchRef t = none) :
    ∃ msg, build_tables resolver secs = .error msg := by
  have hres : resolveTransform resolver t =
      .error ("Malformed callable " ++ t) := by
    unfold resolveTransform
    rw [if_neg h1, if_neg h2, if_neg h3, hmr]
  induction secs with
  | nil => cases hmem
  | cons s rest ih =>
    rcases List.mem_cons.mp hmem with heq | hmem'
    · subst heq
      refine ⟨"Malformed callable " ++ t, ?_⟩
      simp only [build_tables, hname, if_true, hq, ht, Option.getD_some, hres]
    · obtain ⟨msg, hmsg⟩ := ih hmem'
      unfold build_tables
      by_cases hs : "table:".data.isPrefixOf s.name.data
      · rw [if_pos hs]
        cases hsq : s.query with
        | none => exact ⟨msg, hmsg⟩
        | some q' =>
          cases hrt : resolveTransform resolver ((s.transform).getD "all") with
          | error e => exact ⟨e, rfl⟩
          | ok f =>
            refine ⟨msg, ?_⟩
            rw [hmsg]
      · rw [if_neg hs]
        exact ⟨msg, hmsg⟩

/-- Witness for C9: a single table section whose transform `"not a callable"`
is neither built in nor a `module:object` reference. -/
theorem claim_c9_witness :
    ∃ msg, build_tables (fun _ _ => none)
      [⟨"table:foo", some "select 1", some "not a callable"⟩] = .error msg :=
  claim_c9_bad_transform_fails_build (fun _ _ => none) _
    ⟨"table:foo", some "select 1", some "not a callable"⟩
    "select 1" "not a callable" (by simp) (by decide) rfl rfl
    (by decide) (by decide) (by decide) (by decide)

end Socketmap
